import Mathlib

/-!
# Verification of the PISIGHT realtime relay backend

A shallow embedding of the per-connection session state machine and the
transcribe → infer → synthesize pipeline of the PISIGHT backend
(`index.js` / `controllers/aiAgent.controller.js`), together with proofs
of the specified properties.

Bytes are modelled as `List Nat` (each entry one octet).  Remote services
(AssemblyAI, the Gemini text model, the Gemini TTS model) are external
collaborators; their responses enter the model as explicit oracle values,
while everything the repository's own code does with those responses is
translated directly from the source.
-/

/-- Per-connection session state (`sessionData` in `index.js`):
`image` is the last fully reassembled image, `imageChunks` the in-progress
assembly buffer, `isProcessing` the single-flight admission flag. -/
structure Session where
  image : Option (List Nat)
  imageChunks : List (List Nat)
  isProcessing : Bool
deriving DecidableEq, Repr

/-- The fresh session allocated on connection. -/
def initialSession : Session := ⟨none, [], false⟩

/-- Outbound socket events emitted by the handlers.  The `audio` field of
`ai_response` carries the base64 text encoding of the framed WAV buffer
(`aiAudioBuffer.toString("base64")`). -/
inductive OutEvent where
  | ai_response (text : String) (audio : String)
  | error (ty : String) (msg : String)
  | image_received (size : Nat)
  | image_cleared
deriving DecidableEq, Repr

/-- Is this event a `busy` admission rejection? -/
def isBusyEvent : OutEvent → Bool
  | OutEvent.error ty _ => ty == "busy"
  | _ => false

/-- Is this event a pipeline-terminal signal: an `ai_response` or a typed
pipeline error (`full_audio` / `text_processing`)? -/
def isTerminalEvent : OutEvent → Bool
  | OutEvent.ai_response _ _ => true
  | OutEvent.error ty _ => ty == "full_audio" || ty == "text_processing"
  | _ => false

/-- Number of `busy` rejections in an emission list. -/
def countBusy (evs : List OutEvent) : Nat := (evs.filter isBusyEvent).length

/-- Number of pipeline-terminal events in an emission list. -/
def countTerminal (evs : List OutEvent) : Nat := (evs.filter isTerminalEvent).length

/-! ## Base64 (Node `Buffer.toString("base64")` / `Buffer.from(_, "base64")`) -/

/-- The base64 alphabet. -/
def base64Chars : List Char :=
  "ABCDEFGHIJKLMNOPQRSTUVWXYZabcdefghijklmnopqrstuvwxyz0123456789+/".toList

/-- The base64 digit for a 6-bit value. -/
def base64Char (n : Nat) : Char := base64Chars.getD n 'A'

/-- Standard base64 encoding of a byte list, with `=` padding. -/
def base64Encode : List Nat → String
  | [] => ""
  | [b1] =>
      String.mk [base64Char (b1 / 4 % 64), base64Char (b1 % 4 * 16), '=', '=']
  | [b1, b2] =>
      String.mk [base64Char (b1 / 4 % 64), base64Char (b1 % 4 * 16 + b2 / 16 % 16),
        base64Char (b2 % 16 * 4), '=']
  | b1 :: b2 :: b3 :: rest =>
      String.mk [base64Char (b1 / 4 % 64), base64Char (b1 % 4 * 16 + b2 / 16 % 16),
        base64Char (b2 % 16 * 4 + b3 / 64 % 4), base64Char (b3 % 64)] ++
      base64Encode rest

/-! ## Inference adapter (`AiProcessing` in `aiAgent.controller.js`) -/

/-- One content part of a model turn or of a response step:
a text segment, an image (data URL), or a non-text segment. -/
inductive ContentPart where
  | text (t : String)
  | image (url : String)
  | other
deriving DecidableEq, Repr

/-- One message turn sent to the model. -/
structure Turn where
  role : String
  content : List ContentPart
deriving DecidableEq, Repr

/-- One step of the model's response (`response.steps[i]`). -/
structure Step where
  content : List ContentPart
deriving DecidableEq, Repr

/-- The model's resolved response (`response.steps`). -/
structure GenResponse where
  steps : List Step
deriving DecidableEq, Repr

/-- The message list `AiProcessing` builds: a text turn with the user's
message, plus — only when an image is held — a second turn pairing the
fixed instruction `"Describe this image in detail"` with the image as a
base64 PNG data URL. -/
def buildMessages (img : Option (List Nat)) (message : String) : List Turn :=
  [⟨"user", [ContentPart.text message]⟩] ++
    (match img with
     | none => []
     | some b =>
         [⟨"user", [ContentPart.text "Describe this image in detail",
           ContentPart.image ("data:image/png;base64," ++ base64Encode b)]⟩])

/-- `response.steps.map(step => step.content.map(c => c.type === "text" ?
c.text : "").join("\n")).join("\n")`. -/
def extractText (r : GenResponse) : String :=
  String.intercalate "\n" (r.steps.map (fun step =>
    String.intercalate "\n" (step.content.map (fun c =>
      match c with
      | ContentPart.text t => t
      | _ => ""))))

/-- `AiProcessing(img, message)`: builds the messages, invokes the remote
model (the oracle `remote`; a rejected call propagates as `.error`), and
maps the resolved response through `extractText`. -/
def AiProcessing (img : Option (List Nat)) (message : String)
    (remote : List Turn → Except String GenResponse) : Except String String :=
  match remote (buildMessages img message) with
  | Except.error e => Except.error e
  | Except.ok r => Except.ok (extractText r)

/-! ## Session handlers for image upload, clear, disconnect (`index.js`) -/

/-- The `image_chunk` handler.  `conv` is the result of
`Buffer.from(data.chunk)` (`.error` when the conversion throws); on
success the chunk is pushed onto the assembly buffer unconditionally, and
a terminal chunk replaces `image` with the concatenation of the buffer,
resets the buffer, and acknowledges with the final byte length. -/
def imageChunkHandler (s : Session) (conv : Except String (List Nat))
    (isLast : Bool) : Session × List OutEvent :=
  match conv with
  | Except.error e => (s, [OutEvent.error "image_upload" e])
  | Except.ok chunk =>
      let s1 : Session := { s with imageChunks := s.imageChunks ++ [chunk] }
      if isLast then
        let img := s1.imageChunks.flatten
        ({ s1 with image := some img, imageChunks := [] },
          [OutEvent.image_received img.length])
      else (s1, [])

/-- The `clear_image` handler: drop the held image, acknowledge. -/
def clearImageHandler (s : Session) : Session × List OutEvent :=
  ({ s with image := none }, [OutEvent.image_cleared])

/-- The `disconnect` handler: `sessionData.image = null;
sessionData.imageChunks = [];` (it emits nothing). -/
def disconnectHandler (s : Session) : Session :=
  { s with image := none, imageChunks := [] }

/-- Process a list of `image_chunk` events in arrival order, collecting
emissions. -/
def runImageEvents (s : Session) :
    List (Except String (List Nat) × Bool) → Session × List OutEvent
  | [] => (s, [])
  | (c, l) :: rest =>
      let r1 := imageChunkHandler s c l
      let r2 := runImageEvents r1.1 rest
      (r2.1, r1.2 ++ r2.2)

/-- Tag each element of a list with `isLast`: `true` exactly on the final
element. -/
def markLast : List α → List (α × Bool)
  | [] => []
  | [a] => [(a, true)]
  | a :: b :: rest => (a, false) :: markLast (b :: rest)

/-! ## Transcription adapter (AssemblyAI poll loop in the `audio_full` handler) -/

/-- One polled transcript object (`assemblyClient.transcripts.get(id)`):
its `status` string, its `text` (present only when completed), and its
vendor `error` message. -/
structure Transcript where
  status : String
  text : Option String
  error : String
deriving DecidableEq, Repr

/-- The poll interval of the reference implementation:
`await new Promise((r) => setTimeout(r, 3000))`. -/
def pollIntervalMs : Nat := 3000

/-- The `while (true)` poll loop, driven by the successive poll results
`polls`.  Each iteration: break on `completed`, throw the vendor error on
`error`, otherwise sleep `pollIntervalMs` and poll again.  Returns the
outcome together with the list of sleep durations performed; `none` means
the supplied trace never reaches a terminal status (the loop is still
running — it has no bound of its own). -/
def pollLoop : List Transcript → Option (Except String Transcript × List Nat)
  | [] => none
  | t :: rest =>
      if t.status = "completed" then some (Except.ok t, [])
      else if t.status = "error" then some (Except.error t.error, [])
      else
        match pollLoop rest with
        | none => none
        | some (r, sleeps) => some (r, pollIntervalMs :: sleeps)

/-! ## Container framer (`BufferWritable`, `getWaveBuffer` in `index.js`) -/

/-- Two-byte little-endian encoding. -/
def le2 (n : Nat) : List Nat := [n % 256, n / 256 % 256]

/-- Four-byte little-endian encoding. -/
def le4 (n : Nat) : List Nat :=
  [n % 256, n / 256 % 256, n / 65536 % 256, n / 16777216 % 256]

/-- Two-byte little-endian decoding. -/
def de2 : List Nat → Nat
  | [a, b] => a + 256 * b
  | _ => 0

/-- Four-byte little-endian decoding. -/
def de4 : List Nat → Nat
  | [a, b, c, d] => a + 256 * b + 65536 * c + 16777216 * d
  | _ => 0

/-- Modelled from the spec: the stream `Writer` of the external `wav`
package is vendor code, not part of this repository; per §4.1 it prepends
"a standard header" to the sample data, i.e. the standard 44-byte PCM
RIFF/WAVE header determined by the format descriptor and the data
length. -/
def wavHeader (channels rate bitDepth dataLen : Nat) : List Nat :=
  [82, 73, 70, 70] ++ le4 (36 + dataLen) ++ [87, 65, 86, 69] ++
  [102, 109, 116, 32] ++ le4 16 ++ le2 1 ++ le2 channels ++ le4 rate ++
  le4 (rate * channels * (bitDepth / 8)) ++ le2 (channels * (bitDepth / 8)) ++
  le2 bitDepth ++ [100, 97, 116, 97] ++ le4 dataLen

/-- Modelled from the spec: the chunk sequence the `wav` writer pipes into
its sink before signalling `finish` — the header followed by the written
PCM data. -/
def wavWriterChunks (channels rate bitDepth : Nat) (pcm : List Nat) :
    List (List Nat) :=
  [wavHeader channels rate bitDepth pcm.length, pcm]

/-- The in-memory sink of `getWaveBuffer` (`class BufferWritable`): its
`chunks` array. -/
structure BufferWritable where
  chunks : List (List Nat)
deriving DecidableEq, Repr

/-- `_write(chunk, encoding, callback) { this.chunks.push(chunk); }`. -/
def BufferWritable.write (bw : BufferWritable) (chunk : List Nat) :
    BufferWritable := ⟨bw.chunks ++ [chunk]⟩

/-- `getBuffer() { return Buffer.concat(this.chunks); }`. -/
def BufferWritable.getBuffer (bw : BufferWritable) : List Nat :=
  bw.chunks.flatten

/-- `getWaveBuffer(pcmData, channels, rate, sampleWidth)`: pipe a
`wav.Writer` configured with `(channels, rate, bitDepth = sampleWidth*8)`
into a fresh `BufferWritable`, write `pcmData`, end the stream, and
resolve with `getBuffer()` once `finish` fires — i.e. once every chunk has
been flushed into the sink. -/
def getWaveBuffer (pcmData : List Nat) (channels rate sampleWidth : Nat) :
    List Nat :=
  ((wavWriterChunks channels rate (sampleWidth * 8) pcmData).foldl
    BufferWritable.write ⟨[]⟩).getBuffer

/-- Header field: declared channel count (bytes 22–23). -/
def headerChannels (buf : List Nat) : Nat := de2 ((buf.drop 22).take 2)

/-- Header field: declared sample rate (bytes 24–27). -/
def headerRate (buf : List Nat) : Nat := de4 ((buf.drop 24).take 4)

/-- Header field: declared bits per sample (bytes 34–35). -/
def headerBits (buf : List Nat) : Nat := de2 ((buf.drop 34).take 2)

/-- Header field: declared data-chunk byte length (bytes 40–43). -/
def headerDataLen (buf : List Nat) : Nat := de4 ((buf.drop 40).take 4)

/-- Header-declared sample count: data length over block alignment. -/
def headerSampleCount (buf : List Nat) : Nat :=
  headerDataLen buf / (headerChannels buf * (headerBits buf / 8))

/-- The payload of a framed buffer: everything after the 44-byte header. -/
def wavPayload (buf : List Nat) : List Nat := buf.drop 44

/-! ## Synthesis adapter (`textToAudio` in `index.js`) -/

/-- `textToAudio`: given the TTS response's optional raw-PCM payload
(`candidates[0].content.parts[0].inlineData.data`, already base64-decoded
into bytes; `.error` when the remote call itself rejects), throw when no
audio payload is present, otherwise frame the raw PCM with
`getWaveBuffer` at its defaults (mono, 24000 Hz, 16-bit). -/
def textToAudio (resp : Except String (Option (List Nat))) :
    Except String (List Nat) :=
  match resp with
  | Except.error e => Except.error e
  | Except.ok none => Except.error "No audio data returned from Gemini API."
  | Except.ok (some rawPcm) => Except.ok (getWaveBuffer rawPcm 1 24000 2)

/-! ## Pipeline and admission (the `audio_full` / `text_message` handlers) -/

/-- The infer → synthesize tail of both pipelines: `AiProcessing` on the
held image and the user text, then `textToAudio` on the response text.
Returns the response text together with the framed audio buffer. -/
def inferSynth (img : Option (List Nat)) (userText : String)
    (remote : List Turn → Except String GenResponse)
    (tts : String → Except String (Option (List Nat))) :
    Except String (String × List Nat) :=
  match AiProcessing img userText remote with
  | Except.error e => Except.error e
  | Except.ok aiText =>
      match textToAudio (tts aiText) with
      | Except.error e => Except.error e
      | Except.ok wavBuf => Except.ok (aiText, wavBuf)

/-- The remote world of one `audio_full` pipeline: the upload result
(`files.upload`), the job creation result (`transcripts.create`), the
successive poll results, the text model, and the TTS model. -/
structure AudioEnv where
  upload : Except String String
  create : String → Except String String
  polls : List Transcript
  remote : List Turn → Except String GenResponse
  tts : String → Except String (Option (List Nat))

/-- The remote world of one `text_message` pipeline. -/
structure TextEnv where
  remote : List Turn → Except String GenResponse
  tts : String → Except String (Option (List Nat))

/-- The body of the `audio_full` try-block after admission: upload, create
the job, poll to a terminal status (`completedTranscript.text || ""` when
completed), then infer and synthesize.  `none` means the poll loop never
terminates on the supplied trace. -/
def audioPipeline (img : Option (List Nat)) (env : AudioEnv) :
    Option (Except String (String × List Nat)) :=
  match env.upload with
  | Except.error e => some (Except.error e)
  | Except.ok url =>
      match env.create url with
      | Except.error e => some (Except.error e)
      | Except.ok _ =>
          match pollLoop env.polls with
          | none => none
          | some (Except.error e, _) => some (Except.error e)
          | some (Except.ok t, _) =>
              some (inferSynth img (t.text.getD "") env.remote env.tts)

/-- The body of the `text_message` try-block after admission. -/
def textPipeline (img : Option (List Nat)) (message : String)
    (env : TextEnv) : Except String (String × List Nat) :=
  inferSynth img message env.remote env.tts

/-- A pipeline-triggering inbound event with its remote world. -/
inductive TriggerEvent where
  | audioFull (env : AudioEnv)
  | textMessage (message : String) (env : TextEnv)

/-- The synchronous admission prefix both triggering handlers run before
their first suspension point: while `isProcessing`, emit the `busy`
rejection and return (`none` pending pipeline); otherwise set
`isProcessing = true` and enter the pipeline (`some` pending pipeline). -/
def startTrigger (s : Session) (e : TriggerEvent) :
    Session × List OutEvent × Option TriggerEvent :=
  if s.isProcessing then
    (s, [OutEvent.error "busy" "Still processing previous request"], none)
  else ({ s with isProcessing := true }, [], some e)

/-- The rest of an admitted handler: run the pipeline on the session's
current image, emit `ai_response` (audio base64-encoded) on success or the
typed `error` (`full_audio` / `text_processing`) on a caught exception,
and — in the `finally` clause, on every exit path — reset
`isProcessing = false`. -/
def finishTrigger (s : Session) : TriggerEvent → Option (Session × List OutEvent)
  | TriggerEvent.audioFull env =>
      match audioPipeline s.image env with
      | none => none
      | some (Except.ok (t, w)) =>
          some ({ s with isProcessing := false },
            [OutEvent.ai_response t (base64Encode w)])
      | some (Except.error m) =>
          some ({ s with isProcessing := false },
            [OutEvent.error "full_audio" m])
  | TriggerEvent.textMessage msg env =>
      match textPipeline s.image msg env with
      | Except.ok (t, w) =>
          some ({ s with isProcessing := false },
            [OutEvent.ai_response t (base64Encode w)])
      | Except.error m =>
          some ({ s with isProcessing := false },
            [OutEvent.error "text_processing" m])

/-- One triggering handler run to completion with no interleaved events. -/
def handleTrigger (s : Session) (e : TriggerEvent) :
    Option (Session × List OutEvent) :=
  match startTrigger s e with
  | (s1, evs, none) => some (s1, evs)
  | (s1, evs, some p) => (finishTrigger s1 p).map (fun r => (r.1, evs ++ r.2))

/-- Two triggering events submitted back-to-back: the gateway dispatches
them in arrival order, so each runs its admission prefix in order, after
which the pending pipelines (if any) complete.  Returns the final session,
all emissions in order, and how many pipelines actually ran. -/
def backToBack (s : Session) (e1 e2 : TriggerEvent) :
    Option (Session × List OutEvent × Nat) :=
  match startTrigger s e1 with
  | (s1, ev1, p1) =>
      match startTrigger s1 e2 with
      | (s2, ev2, p2) =>
          match p1 with
          | none =>
              match p2 with
              | none => some (s2, ev1 ++ ev2, 0)
              | some q =>
                  (finishTrigger s2 q).map
                    (fun r => (r.1, ev1 ++ ev2 ++ r.2, 1))
          | some p =>
              match finishTrigger s2 p with
              | none => none
              | some r =>
                  match p2 with
                  | none => some (r.1, ev1 ++ ev2 ++ r.2, 1)
                  | some q =>
                      (finishTrigger r.1 q).map
                        (fun r2 => (r2.1, ev1 ++ ev2 ++ r.2 ++ r2.2, 2))

/-! ## Supporting lemmas -/

/-- `runImageEvents` distributes over list append. -/
lemma runImageEvents_append (l1 l2 : List (Except String (List Nat) × Bool)) :
    ∀ s : Session,
      runImageEvents s (l1 ++ l2) =
        ((runImageEvents (runImageEvents s l1).1 l2).1,
          (runImageEvents s l1).2 ++ (runImageEvents (runImageEvents s l1).1 l2).2) := by
  induction l1 with
  | nil => intro s; simp [runImageEvents]
  | cons hd tl ih => intro s; simp [runImageEvents, ih, List.append_assoc]

/-- A run of non-terminal, successfully converted chunks only extends the
assembly buffer and emits nothing. -/
lemma runImageEvents_nonLast (chunks : List (List Nat)) :
    ∀ s : Session,
      runImageEvents s (chunks.map (fun c => (Except.ok c, false))) =
        ({ s with imageChunks := s.imageChunks ++ chunks }, []) := by
  induction chunks with
  | nil => intro s; simp [runImageEvents]
  | cons a rest ih =>
      intro s
      simp [runImageEvents, imageChunkHandler, ih, List.append_assoc]

/-- `markLast` marks exactly the final element of a concat-form list. -/
lemma markLast_concat (a : α) : ∀ l : List α,
    markLast (l ++ [a]) = l.map (fun x => (x, false)) ++ [(a, true)] := by
  intro l
  induction l with
  | nil => simp [markLast]
  | cons x l ih =>
      cases l with
      | nil => simp [markLast]
      | cons y l2 => simp [markLast] at ih ⊢; exact ih

/-! ## Claims -/

/-- C2: for any sequence of N image chunks where only the last is marked
`isLast`, starting from a session with an empty assembly buffer, after the
last event the session's image is exactly the byte-concatenation of the N
chunks in arrival order, the assembly buffer is empty, and a single
`image_received` acknowledgment carrying the concatenated byte length is
emitted. -/
theorem C2_image_reassembly (s : Session) (chunks : List (List Nat))
    (hne : chunks ≠ []) (hbuf : s.imageChunks = []) :
    (runImageEvents s (markLast (chunks.map Except.ok))).1.image =
      some chunks.flatten ∧
    (runImageEvents s (markLast (chunks.map Except.ok))).1.imageChunks = [] ∧
    (runImageEvents s (markLast (chunks.map Except.ok))).2 =
      [OutEvent.image_received chunks.flatten.length] := by
  rcases (List.eq_nil_or_concat chunks) with h | ⟨init, a, rfl⟩
  · exact absurd h hne
  · simp only [List.concat_eq_append]
    have hmap : (init ++ [a]).map (Except.ok (ε := String)) =
        init.map Except.ok ++ [Except.ok a] := by simp
    rw [hmap, markLast_concat, runImageEvents_append]
    have hmm : (init.map (Except.ok (ε := String))).map (fun x => (x, false)) =
        init.map (fun c => (Except.ok c, false)) := by simp
    rw [hmm, runImageEvents_nonLast]
    simp [runImageEvents, imageChunkHandler, hbuf]

/-- C2 witness: two chunks `[1,2]` and `[3]`, the second terminal. -/
theorem C2_image_reassembly_witness :
    (runImageEvents initialSession (markLast ([[1, 2], [3]].map Except.ok))).1.image =
      some [1, 2, 3] ∧
    (runImageEvents initialSession (markLast ([[1, 2], [3]].map Except.ok))).1.imageChunks = [] ∧
    (runImageEvents initialSession (markLast ([[1, 2], [3]].map Except.ok))).2 =
      [OutEvent.image_received 3] :=
  C2_image_reassembly initialSession [[1, 2], [3]] (by decide) rfl

/-- C7: the `image_chunk` handler never emits a `busy` rejection, never
changes the busy flag, behaves identically whether or not a pipeline is in
flight, appends unconditionally while `Processing`, and a terminal chunk
completes reassembly (image replaced, acknowledgment emitted) even while
the busy flag is set. -/
theorem C7_image_chunk_independent (s : Session)
    (conv : Except String (List Nat)) (l : Bool) (chunk : List Nat) :
    countBusy (imageChunkHandler s conv l).2 = 0 ∧
    (imageChunkHandler s conv l).1.isProcessing = s.isProcessing ∧
    imageChunkHandler { s with isProcessing := true } conv l =
      ({ (imageChunkHandler { s with isProcessing := false } conv l).1 with
          isProcessing := true },
        (imageChunkHandler { s with isProcessing := false } conv l).2) ∧
    (imageChunkHandler { s with isProcessing := true } (Except.ok chunk)
        false).1.imageChunks = s.imageChunks ++ [chunk] ∧
    (imageChunkHandler { s with isProcessing := true } (Except.ok chunk)
        true).1.image = some (s.imageChunks ++ [chunk]).flatten ∧
    (imageChunkHandler { s with isProcessing := true } (Except.ok chunk)
        true).2 =
      [OutEvent.image_received (s.imageChunks ++ [chunk]).flatten.length] := by
  rcases conv with e | c <;> cases l <;>
    simp [imageChunkHandler, countBusy, isBusyEvent]

/-- C9: `clear_image` sets the image to absent and emits `image_cleared`,
leaving the assembly buffer and the busy flag unchanged and never
emitting a `busy` rejection (it does not consult the admission flag). -/
theorem C9_clear_image_frame (s : Session) :
    clearImageHandler s = ({ s with image := none }, [OutEvent.image_cleared]) ∧
    (clearImageHandler s).1.imageChunks = s.imageChunks ∧
    (clearImageHandler s).1.isProcessing = s.isProcessing ∧
    countBusy (clearImageHandler s).2 = 0 := by
  simp [clearImageHandler, countBusy, isBusyEvent]

/-- C8 counterexample: a session whose pipeline is in flight keeps
`isProcessing = true` across the disconnect handler, so not every field is
reset to its initial `false` state as the claim requires. -/
theorem C8_counterexample :
    (disconnectHandler
        { image := none, imageChunks := [], isProcessing := true }).isProcessing
      ≠ false := by decide

/-- C8 (amended): the disconnect handler resets the held image and the
chunk-assembly buffer to their initial empty states; the busy flag is not
modified by the handler (the session record itself is discarded with the
connection, so nothing persists or is shared). -/
theorem C8_disconnect_resets (s : Session) :
    disconnectHandler s = { s with image := none, imageChunks := [] } ∧
    (disconnectHandler s).image = none ∧
    (disconnectHandler s).imageChunks = [] ∧
    (disconnectHandler s).isProcessing = s.isProcessing := by
  simp [disconnectHandler]

/-- C10: if converting an inbound image chunk to a byte buffer throws, the
handler emits exactly one `image_upload` error carrying the exception
message and the session is returned unchanged — no append, image and busy
flag untouched. -/
theorem C10_image_chunk_error_atomic (s : Session) (msg : String) (l : Bool) :
    imageChunkHandler s (Except.error msg) l =
      (s, [OutEvent.error "image_upload" msg]) := rfl

/-- Whenever an admitted pipeline finishes — success, caught failure, or
thrown exception — the handler resets the busy flag and emits exactly one
terminal event and no `busy` rejection. -/
lemma finishTrigger_spec (s : Session) (e : TriggerEvent)
    (r : Session × List OutEvent) (h : finishTrigger s e = some r) :
    r.1.isProcessing = false ∧ countBusy r.2 = 0 ∧ countTerminal r.2 = 1 := by
  cases e with
  | audioFull env =>
      simp only [finishTrigger] at h
      split at h
      · exact absurd h (by simp)
      · cases h; simp [countBusy, countTerminal, isBusyEvent, isTerminalEvent]
      · cases h; simp [countBusy, countTerminal, isBusyEvent, isTerminalEvent]
  | textMessage msg env =>
      simp only [finishTrigger] at h
      split at h <;>
        (cases h; simp [countBusy, countTerminal, isBusyEvent, isTerminalEvent])

/-- C1: single-flight admission.  From an idle session, two
pipeline-triggering events submitted back-to-back (the second arriving
while the first is suspended at its first await) produce exactly one
pipeline run, exactly one `busy` rejection, and exactly one terminal
`ai_response`-or-typed-error; the busy flag is back to `false` on every
exit path of the admitted pipeline. -/
theorem C1_single_flight (s : Session) (e1 e2 : TriggerEvent)
    (r : Session × List OutEvent)
    (hidle : s.isProcessing = false)
    (hterm : finishTrigger { s with isProcessing := true } e1 = some r) :
    backToBack s e1 e2 =
      some (r.1, OutEvent.error "busy" "Still processing previous request" :: r.2, 1) ∧
    r.1.isProcessing = false ∧
    countBusy (OutEvent.error "busy" "Still processing previous request" :: r.2) = 1 ∧
    countTerminal (OutEvent.error "busy" "Still processing previous request" :: r.2) = 1 := by
  have hspec := finishTrigger_spec _ _ _ hterm
  refine ⟨?_, hspec.1, ?_, ?_⟩
  · simp [backToBack, startTrigger, hidle, hterm]
  · simpa [countBusy, isBusyEvent] using hspec.2.1
  · simpa [countTerminal, isTerminalEvent] using hspec.2.2

/-- A concrete remote world for witnesses: the text model answers `"4."`
and the TTS call rejects with `"boom"`. -/
def witnessTextEnv : TextEnv :=
  { remote := fun _ => Except.ok ⟨[⟨[ContentPart.text "4."]⟩]⟩,
    tts := fun _ => Except.error "boom" }

/-- C1 witness: two back-to-back `text_message` events on a fresh
session. -/
theorem C1_single_flight_witness :
    backToBack initialSession (TriggerEvent.textMessage "hi" witnessTextEnv)
        (TriggerEvent.textMessage "again" witnessTextEnv) =
      some (initialSession,
        OutEvent.error "busy" "Still processing previous request" ::
          [OutEvent.error "text_processing" "boom"], 1) ∧
    initialSession.isProcessing = false ∧
    countBusy (OutEvent.error "busy" "Still processing previous request" ::
      [OutEvent.error "text_processing" "boom"]) = 1 ∧
    countTerminal (OutEvent.error "busy" "Still processing previous request" ::
      [OutEvent.error "text_processing" "boom"]) = 1 :=
  C1_single_flight initialSession
    (TriggerEvent.textMessage "hi" witnessTextEnv)
    (TriggerEvent.textMessage "again" witnessTextEnv)
    (initialSession, [OutEvent.error "text_processing" "boom"]) rfl rfl

/-- The poll loop on a trace of non-terminal statuses followed by a
terminal one: it reaches the terminal transcript after sleeping the fixed
interval once per non-terminal poll. -/
lemma pollLoop_reaches (t : Transcript) (rest : List Transcript) :
    ∀ pre : List Transcript,
      (∀ p ∈ pre, p.status ≠ "completed" ∧ p.status ≠ "error") →
      (t.status = "error" →
        pollLoop (pre ++ t :: rest) =
          some (Except.error t.error, List.replicate pre.length pollIntervalMs)) ∧
      (t.status = "completed" →
        pollLoop (pre ++ t :: rest) =
          some (Except.ok t, List.replicate pre.length pollIntervalMs)) := by
  intro pre
  induction pre with
  | nil =>
      intro _
      constructor
      · intro herr
        simp [pollLoop, herr]
      · intro hcomp
        simp [pollLoop, hcomp]
  | cons p pre ih =>
      intro hpre
      have hp := hpre p (by simp)
      have ihspec := ih (fun q hq => hpre q (by simp [hq]))
      constructor
      · intro herr
        simp [pollLoop, hp.1, hp.2, ihspec.1 herr, List.replicate_succ]
      · intro hcomp
        simp [pollLoop, hp.1, hp.2, ihspec.2 hcomp, List.replicate_succ]

/-- C4: the transcription job is polled at the fixed 3000 ms interval
(one sleep per non-terminal poll) until `completed` or `error`.  On
`error` the whole handler emits a single `error` event of type
`full_audio` carrying the vendor's message and leaves the busy flag at
`false`; on `completed` the pipeline continues with the job's text, the
empty string substituted when the text is absent. -/
theorem C4_transcription_poll (s : Session) (pre : List Transcript)
    (t : Transcript) (url id : String)
    (remote : List Turn → Except String GenResponse)
    (tts : String → Except String (Option (List Nat)))
    (hpre : ∀ p ∈ pre, p.status ≠ "completed" ∧ p.status ≠ "error")
    (hidle : s.isProcessing = false) :
    (t.status = "error" →
      pollLoop (pre ++ [t]) =
        some (Except.error t.error, List.replicate pre.length pollIntervalMs) ∧
      handleTrigger s (TriggerEvent.audioFull
          ⟨Except.ok url, fun _ => Except.ok id, pre ++ [t], remote, tts⟩) =
        some ({ s with isProcessing := false },
          [OutEvent.error "full_audio" t.error])) ∧
    (t.status = "completed" →
      pollLoop (pre ++ [t]) =
        some (Except.ok t, List.replicate pre.length pollIntervalMs) ∧
      audioPipeline s.image
          ⟨Except.ok url, fun _ => Except.ok id, pre ++ [t], remote, tts⟩ =
        some (inferSynth s.image (t.text.getD "") remote tts)) := by
  have hreach := pollLoop_reaches t [] pre hpre
  constructor
  · intro herr
    have hpoll := hreach.1 herr
    refine ⟨hpoll, ?_⟩
    simp [handleTrigger, startTrigger, hidle, finishTrigger, audioPipeline, hpoll]
  · intro hcomp
    have hpoll := hreach.2 hcomp
    exact ⟨hpoll, by simp [audioPipeline, hpoll]⟩

/-- C4 witness: one non-terminal poll, then a vendor `error` status with
message `"bad audio"`, on a fresh session. -/
theorem C4_transcription_poll_witness :
    pollLoop ([⟨"processing", none, ""⟩] ++ [⟨"error", none, "bad audio"⟩]) =
      some (Except.error "bad audio", List.replicate 1 pollIntervalMs) ∧
    handleTrigger initialSession (TriggerEvent.audioFull
        ⟨Except.ok "u", fun _ => Except.ok "i",
          [⟨"processing", none, ""⟩] ++ [⟨"error", none, "bad audio"⟩],
          witnessTextEnv.remote, witnessTextEnv.tts⟩) =
      some ({ initialSession with isProcessing := false },
        [OutEvent.error "full_audio" "bad audio"]) :=
  (C4_transcription_poll initialSession [⟨"processing", none, ""⟩]
    ⟨"error", none, "bad audio"⟩ "u" "i" witnessTextEnv.remote witnessTextEnv.tts
    (by decide) rfl).1 rfl

/-- Framing flushes the header chunk and the whole PCM chunk into the
sink, so the resolved buffer is exactly header-then-payload. -/
lemma getWaveBuffer_eq (pcm : List Nat) (c r w : Nat) :
    getWaveBuffer pcm c r w = wavHeader c r (w * 8) pcm.length ++ pcm := by
  simp [getWaveBuffer, wavWriterChunks, BufferWritable.write,
    BufferWritable.getBuffer]

/-- Parsing the (mono, 24000 Hz, 16-bit) header back out of a framed
buffer recovers the format and, below the 32-bit limit of the length
field, the exact data length; stripping the 44-byte header recovers the
payload. -/
lemma wavHeader_parse (d : Nat) (pcm : List Nat) :
    headerChannels (wavHeader 1 24000 16 d ++ pcm) = 1 ∧
    headerRate (wavHeader 1 24000 16 d ++ pcm) = 24000 ∧
    headerBits (wavHeader 1 24000 16 d ++ pcm) = 16 ∧
    (d < 4294967296 → headerDataLen (wavHeader 1 24000 16 d ++ pcm) = d) ∧
    wavPayload (wavHeader 1 24000 16 d ++ pcm) = pcm ∧
    (wavHeader 1 24000 16 d ++ pcm).length = 44 + pcm.length := by
  refine ⟨?_, ?_, ?_, ?_, ?_, ?_⟩
  · simp [headerChannels, wavHeader, le4, le2, de2]
  · simp [headerRate, wavHeader, le4, le2, de4]
  · simp [headerBits, wavHeader, le4, le2, de2]
  · intro h
    simp [headerDataLen, wavHeader, le4, le2, de4]
    omega
  · simp [wavPayload, wavHeader, le4, le2]
  · simp [wavHeader, le4, le2]
    omega

/-- C5: `textToAudio` propagates a rejected TTS call, fails when the
response carries no audio payload, and otherwise returns the raw samples
framed by the Container Framer at the fixed format (mono, 24000 Hz,
16-bit) — the caller always receives a headered buffer. -/
theorem C5_synthesis_contract (raw : List Nat) (e : String) :
    textToAudio (Except.error e) = Except.error e ∧
    textToAudio (Except.ok none) =
      Except.error "No audio data returned from Gemini API." ∧
    textToAudio (Except.ok (some raw)) =
      Except.ok (wavHeader 1 24000 16 raw.length ++ raw) := by
  refine ⟨rfl, rfl, ?_⟩
  simp [textToAudio, getWaveBuffer_eq]

/-- C6: framing a headerless PCM payload of length L with
(mono, 24000 Hz, 16-bit) yields a buffer whose header declares the
input's format and sample count (L samples of 2 bytes each), whose
payload with the header stripped is exactly the original bytes, and which
contains every input byte (44 header bytes plus the full payload) — the
resolved buffer is never partial. -/
theorem C6_frame_round_trip (pcm : List Nat) (h : pcm.length < 4294967296) :
    headerChannels (getWaveBuffer pcm 1 24000 2) = 1 ∧
    headerRate (getWaveBuffer pcm 1 24000 2) = 24000 ∧
    headerBits (getWaveBuffer pcm 1 24000 2) = 16 ∧
    headerDataLen (getWaveBuffer pcm 1 24000 2) = pcm.length ∧
    headerSampleCount (getWaveBuffer pcm 1 24000 2) = pcm.length / 2 ∧
    wavPayload (getWaveBuffer pcm 1 24000 2) = pcm ∧
    getWaveBuffer pcm 1 24000 2 = wavHeader 1 24000 16 pcm.length ++ pcm ∧
    (getWaveBuffer pcm 1 24000 2).length = 44 + pcm.length := by
  have heq := getWaveBuffer_eq pcm 1 24000 2
  have hp := wavHeader_parse pcm.length pcm
  rw [heq]
  refine ⟨hp.1, hp.2.1, hp.2.2.1, hp.2.2.2.1 h, ?_, hp.2.2.2.2.1, rfl,
    hp.2.2.2.2.2⟩
  simp [headerSampleCount, hp.1, hp.2.1, hp.2.2.1, hp.2.2.2.1 h]

/-- C6 witness: a concrete four-byte payload. -/
theorem C6_frame_round_trip_witness :
    headerChannels (getWaveBuffer [10, 20, 30, 40] 1 24000 2) = 1 ∧
    headerRate (getWaveBuffer [10, 20, 30, 40] 1 24000 2) = 24000 ∧
    headerBits (getWaveBuffer [10, 20, 30, 40] 1 24000 2) = 16 ∧
    headerDataLen (getWaveBuffer [10, 20, 30, 40] 1 24000 2) =
      ([10, 20, 30, 40] : List Nat).length ∧
    headerSampleCount (getWaveBuffer [10, 20, 30, 40] 1 24000 2) =
      ([10, 20, 30, 40] : List Nat).length / 2 ∧
    wavPayload (getWaveBuffer [10, 20, 30, 40] 1 24000 2) = [10, 20, 30, 40] ∧
    getWaveBuffer [10, 20, 30, 40] 1 24000 2 =
      wavHeader 1 24000 16 ([10, 20, 30, 40] : List Nat).length ++
        [10, 20, 30, 40] ∧
    (getWaveBuffer [10, 20, 30, 40] 1 24000 2).length =
      44 + ([10, 20, 30, 40] : List Nat).length :=
  C6_frame_round_trip [10, 20, 30, 40] (by decide)

/-- A response whose steps each carry a single text segment is joined with
newline separators, in emission order. -/
lemma extractText_textSteps (ts : List String) :
    extractText ⟨ts.map (fun t => ⟨[ContentPart.text t]⟩)⟩ =
      String.intercalate "\n" ts := by
  have key : List.map (fun step : Step =>
      String.intercalate "\n" (step.content.map (fun c =>
        match c with
        | ContentPart.text t => t
        | _ => "")))
      (ts.map (fun t => (⟨[ContentPart.text t]⟩ : Step))) = ts := by
    induction ts with
    | nil => rfl
    | cons a l ih => simp only [List.map_cons] at ih ⊢; rw [ih]; rfl
  simp only [extractText, key]

/-- C3 counterexample: on a response with no textual content the adapter
does not fail — it returns `Except.ok ""` — and the image turn it builds
carries the capitalised instruction `"Describe this image in detail"`,
not the claimed `"describe this image in detail"`. -/
theorem C3_counterexample :
    AiProcessing none "What is 2+2?"
        (fun _ => Except.ok ⟨[⟨[ContentPart.other]⟩]⟩) = Except.ok "" ∧
    (¬ ∃ e, AiProcessing none "What is 2+2?"
        (fun _ => Except.ok ⟨[⟨[ContentPart.other]⟩]⟩) = Except.error e) ∧
    buildMessages (some [0]) "hi" ≠
      [⟨"user", [ContentPart.text "hi"]⟩,
       ⟨"user", [ContentPart.text "describe this image in detail",
         ContentPart.image ("data:image/png;base64," ++ base64Encode [0])]⟩] := by
  refine ⟨rfl, ?_, by decide⟩
  rintro ⟨e, he⟩
  have h2 : (Except.ok "" : Except String String) = Except.error e := he
  exact Except.noConfusion h2

/-- C3 (amended): `AiProcessing` builds a request with a text turn
carrying the user's message and — only when an image is present — a
second turn combining the fixed instruction
`"Describe this image in detail"` with the base64 data-URL-encoded image;
it joins the textual segments of the model's response with newline
separators in emission order (non-text segments contributing empty
strings); it fails exactly when the remote call errors, and a response
with no textual content yields the empty string as a valid non-error
result. -/
theorem C3_inference_contract (img : Option (List Nat)) (msg : String)
    (remote : List Turn → Except String GenResponse) (ts : List String) :
    AiProcessing img msg remote =
      (remote (buildMessages img msg)).map extractText ∧
    buildMessages none msg = [⟨"user", [ContentPart.text msg]⟩] ∧
    (∀ b : List Nat, buildMessages (some b) msg =
      [⟨"user", [ContentPart.text msg]⟩,
       ⟨"user", [ContentPart.text "Describe this image in detail",
         ContentPart.image ("data:image/png;base64," ++ base64Encode b)]⟩]) ∧
    extractText ⟨ts.map (fun t => ⟨[ContentPart.text t]⟩)⟩ =
      String.intercalate "\n" ts ∧
    AiProcessing img msg (fun _ => Except.ok ⟨[]⟩) = Except.ok "" := by
  refine ⟨?_, rfl, fun b => rfl, extractText_textSteps ts, rfl⟩
  cases h : remote (buildMessages img msg) <;> simp [AiProcessing, h, Except.map]
